import Mathlib

/-!
Verification of the twoliter build-environment orchestrator core.

The definitions below are shallow embeddings of the Rust source:
filesystem state is passed explicitly, machine strings are Lean `String`,
fallible code returns `Except` or `Option`, and each definition keeps the
name and the control flow of the source function it embeds.
-/

namespace Twoliter

/-! ## Docker image URIs (src/src/docker/image.rs) -/

/-- Embeds `struct ImageUri` from src/src/docker/image.rs: an optional
registry, a repo and a tag. -/
structure ImageUri where
  registry : Option String
  repo : String
  tag : String
deriving Repr, DecidableEq

namespace ImageUri

/-- Embeds `ImageUri::new` (src/src/docker/image.rs lines 16-26). -/
def new (registry : Option String) (repo tag : String) : ImageUri :=
  { registry := registry, repo := repo, tag := tag }

/-- Embeds `ImageUri::uri` (src/src/docker/image.rs lines 29-34):
`repo:tag` without a registry, `registry/repo:tag` with one. -/
def uri (self : ImageUri) : String :=
  match self.registry with
  | none => self.repo ++ ":" ++ self.tag
  | some registry => registry ++ "/" ++ self.repo ++ ":" ++ self.tag

end ImageUri

/-- Embeds `struct ImageArchUri` from src/src/docker/image.rs: an optional
registry, a name, a target architecture and a tag. -/
structure ImageArchUri where
  registry : Option String
  name : String
  arch : String
  tag : String
deriving Repr, DecidableEq

namespace ImageArchUri

/-- Embeds `ImageArchUri::new` (src/src/docker/image.rs lines 56-68). -/
def new (registry : Option String) (name arch tag : String) : ImageArchUri :=
  { registry := registry, name := name, arch := arch, tag := tag }

/-- Embeds `ImageArchUri::uri` (src/src/docker/image.rs lines 72-77):
`name-arch:tag` without a registry, `registry/name-arch:tag` with one. -/
def uri (self : ImageArchUri) : String :=
  match self.registry with
  | none => self.name ++ "-" ++ self.arch ++ ":" ++ self.tag
  | some registry => registry ++ "/" ++ self.name ++ "-" ++ self.arch ++ ":" ++ self.tag

end ImageArchUri

/-! ## Environment variable filter (src/twoliter/src/cmd/exec.rs) -/

/-- Embeds `const ENV_VARS: [&str; 13]` (src/twoliter/src/cmd/exec.rs
lines 253-267): the exact-name allow-list. -/
def ENV_VARS : List String :=
  [ "ALLOW_MISSING_KEY",
    "AMI_DATA_FILE_SUFFIX",
    "BOOT_CONFIG",
    "BOOT_CONFIG_INPUT",
    "CARGO_MAKE_CARGO_ARGS",
    "CARGO_MAKE_DEFAULT_TESTSYS_KUBECONFIG_PATH",
    "CARGO_MAKE_TESTSYS_ARGS",
    "CARGO_MAKE_TESTSYS_KUBECONFIG_ARG",
    "MARK_OVA_AS_TEMPLATE",
    "RELEASE_START_TIME",
    "SSM_DATA_FILE_SUFFIX",
    "VMWARE_IMPORT_SPEC_PATH",
    "VMWARE_VM_NAME_DEFAULT" ]

/-- Model of Rust `str::starts_with(pat)`: the pattern's characters are a
prefix of the string's characters. -/
def starts_with (s pat : String) : Bool :=
  pat.data.isPrefixOf s.data

/-- Embeds `fn is_build_system_env` (src/twoliter/src/cmd/exec.rs lines
269-284), keeping the if-else chain of the source. -/
def is_build_system_env (key : String) : Bool :=
  if starts_with key "BOOT_CONFIG" then true
  else if starts_with key "BUILDSYS_" then true
  else if starts_with key "PUBLISH_" then true
  else if starts_with key "REPO_" then true
  else if starts_with key "TESTSYS_" then true
  else ENV_VARS.contains key

/-! ## Exec argument assembly (src/twoliter/src/cmd/exec.rs, Exec::run) -/

/-- Embeds the env-var loop of `Exec::run` (src/twoliter/src/cmd/exec.rs
lines 103-111): for each host variable, push `-e` and `NAME=VALUE` when
`is_build_system_env` accepts the name. -/
def env_pair_args : List (String × String) → List String
  | [] => []
  | (key, val) :: rest =>
    (if is_build_system_env key then ["-e", key ++ "=" ++ val] else [])
      ++ env_pair_args rest

/-- Embeds the argument assembly of `Exec::run` (src/twoliter/src/cmd/exec.rs
lines 70-124): the fixed cargo-make prefix with makefile and working
directory, the filtered host environment pairs, the injected `CARGO_HOME`
pair, the task name, and the trailing caller-supplied arguments. -/
def exec_args (makefile project_dir : String) (host_env : List (String × String))
    (cargo_home makefile_task : String) (additional_args : List String) : List String :=
  ["make", "--disable-check-for-updates", "--makefile", makefile, "--cwd", project_dir]
    ++ env_pair_args host_env
    ++ ["-e", "CARGO_HOME=" ++ cargo_home]
    ++ makefile_task :: additional_args

/-! ## Testsys file-argument scan (src/twoliter/src/cmd/exec.rs lines 295-340) -/

/-- Model of Rust `str::split(sep)` over the character list: splits at every
separator, keeping empty segments, as Rust does. -/
def splitOnChar (sep : Char) : List Char → List (List Char)
  | [] => [[]]
  | c :: cs =>
    let r := splitOnChar sep cs
    if c = sep then [] :: r
    else (c :: r.headD []) :: r.tail

/-- Embeds the lower half of `_find_testsys_test_path`: given the iterator
contents from the first argument whose name starts with `-f` or `--file`,
extract the path (src/twoliter/src/cmd/exec.rs lines 318-339). -/
def scanFileArg : List String → Option String
  | [] => none
  | file_arg :: rest =>
    if starts_with file_arg "-f=" || starts_with file_arg "--file=" then
      match ((splitOnChar '=' file_arg.data).drop 1).head? with
      | some s => if s.isEmpty then none else some (String.mk s)
      | none => none
    else rest.head?

/-- Embeds `fn _find_testsys_test_path` (src/twoliter/src/cmd/exec.rs lines
295-340): skip to the first `testsys` token, require the next token to be
`test`, then skip to the first argument starting with `-f` or `--file` and
extract the path from it (or from the argument after it). -/
def find_testsys_test_path (args : List String) : Option String :=
  let l1 := (args.dropWhile (fun s => s != "testsys")).drop 1
  match l1 with
  | [] => none
  | t :: rest =>
    if t = "test" then
      scanFileArg
        (rest.dropWhile (fun s => !(starts_with s "-f") && !(starts_with s "--file")))
    else none

end Twoliter

namespace Twoliter

/-- C2: the filter accepts exactly the five prefixes and the 13 exact
names; `BUILDSYS_ARCH` is accepted and `PATH` is rejected. -/
theorem is_build_system_env_iff :
    (∀ key : String,
      is_build_system_env key = true ↔
        (starts_with key "BOOT_CONFIG" = true ∨ starts_with key "BUILDSYS_" = true ∨
         starts_with key "PUBLISH_" = true ∨ starts_with key "REPO_" = true ∨
         starts_with key "TESTSYS_" = true ∨ key ∈ ENV_VARS))
    ∧ ENV_VARS.length = 13
    ∧ is_build_system_env "BUILDSYS_ARCH" = true
    ∧ is_build_system_env "PATH" = false := by
  refine ⟨?_, by decide, by decide, by decide⟩
  intro key
  unfold is_build_system_env
  constructor
  · intro h
    split at h
    · tauto
    · split at h
      · tauto
      · split at h
        · tauto
        · split at h
          · tauto
          · split at h
            · tauto
            · exact Or.inr (Or.inr (Or.inr (Or.inr (Or.inr (by
                simpa using h)))))
  · intro h
    split
    · rfl
    · split
      · rfl
      · split
        · rfl
        · split
          · rfl
          · split
            · rfl
            · rcases h with h | h | h | h | h | h <;> simp_all

/-- C5: `uri()` of both image reference forms, with and without a
registry, including the two concrete instances from the spec. -/
theorem image_uri_spec :
    (∀ repo tag : String, (ImageUri.new none repo tag).uri = repo ++ ":" ++ tag)
    ∧ (∀ reg repo tag : String,
        (ImageUri.new (some reg) repo tag).uri = reg ++ "/" ++ repo ++ ":" ++ tag)
    ∧ (∀ name arch tag : String,
        (ImageArchUri.new none name arch tag).uri = name ++ "-" ++ arch ++ ":" ++ tag)
    ∧ (∀ reg name arch tag : String,
        (ImageArchUri.new (some reg) name arch tag).uri
          = reg ++ "/" ++ name ++ "-" ++ arch ++ ":" ++ tag)
    ∧ (ImageArchUri.new none "sdk" "x86_64" "v1").uri = "sdk-x86_64:v1"
    ∧ (ImageUri.new none "repo" "v1").uri = "repo:v1" := by
  refine ⟨fun _ _ => rfl, fun _ _ _ => rfl, fun _ _ _ => rfl, fun _ _ _ _ => rfl, rfl, rfl⟩

lemma env_pair_args_eq (l : List (String × String)) :
    env_pair_args l
      = (l.filter (fun kv => is_build_system_env kv.1)).flatMap
          (fun kv => ["-e", kv.1 ++ "=" ++ kv.2]) := by
  induction l with
  | nil => rfl
  | cons kv rest ih =>
    by_cases h : is_build_system_env kv.1 <;>
      simp [env_pair_args, List.filter_cons, h, ih]

/-- C3 counterexample: with an empty host environment, the assembled vector
still contains the pair `-e CARGO_HOME=/ch` before the task name, and
`CARGO_HOME` is not an allow-listed name, contradicting the claim that every
`-e NAME=VALUE` pair is drawn only from allow-listed names. -/
theorem exec_args_unlisted_pair :
    exec_args "M" "D" [] "/ch" "build" ["--foo"]
      = ["make", "--disable-check-for-updates", "--makefile", "M", "--cwd", "D",
         "-e", "CARGO_HOME=/ch", "build", "--foo"]
    ∧ is_build_system_env "CARGO_HOME" = false :=
  ⟨rfl, by decide⟩

/-- C3 amended: the task-runner vector is the fixed prefix with makefile and
working directory, then one `-e NAME=VALUE` pair per allow-listed host
variable, then the injected `-e CARGO_HOME=...` pair, then the task name,
then the caller-supplied arguments in order at the very end; every pair
before the injected one has an allow-listed name. -/
theorem exec_args_order (makefile project_dir cargo_home task : String)
    (host_env : List (String × String)) (additional_args : List String) :
    exec_args makefile project_dir host_env cargo_home task additional_args
      = ["make", "--disable-check-for-updates", "--makefile", makefile, "--cwd", project_dir]
          ++ (host_env.filter (fun kv => is_build_system_env kv.1)).flatMap
              (fun kv => ["-e", kv.1 ++ "=" ++ kv.2])
          ++ ["-e", "CARGO_HOME=" ++ cargo_home]
          ++ task :: additional_args
    ∧ ∀ kv ∈ host_env.filter (fun kv => is_build_system_env kv.1),
        is_build_system_env kv.1 = true := by
  refine ⟨by simp [exec_args, env_pair_args_eq], ?_⟩
  intro kv h
  exact (List.mem_filter.mp h).2

lemma dropWhile_append_all {α} (p : α → Bool) (l1 l2 : List α)
    (h : ∀ a ∈ l1, p a = true) :
    (l1 ++ l2).dropWhile p = l2.dropWhile p := by
  induction l1 with
  | nil => rfl
  | cons a l ih =>
    have ha := h a (by simp)
    simpa [List.dropWhile_cons, ha] using ih (fun b hb => h b (by simp [hb]))

lemma isPrefixOf_append_self {α} [BEq α] [LawfulBEq α] (l1 l2 : List α) :
    l1.isPrefixOf (l1 ++ l2) = true := by
  induction l1 with
  | nil => simp [List.isPrefixOf]
  | cons a l ih => simp [List.isPrefixOf, ih]

lemma starts_with_append (p s : String) : starts_with (p ++ s) p = true := by
  simp only [starts_with, String.data_append]
  exact isPrefixOf_append_self _ _

lemma splitOnChar_no_sep (sep : Char) (cs : List Char) (h : sep ∉ cs) :
    splitOnChar sep cs = [cs] := by
  induction cs with
  | nil => rfl
  | cons c cs ih =>
    have hc : ¬ c = sep := fun e => h (by simp [e])
    have hr := ih (fun hm => h (by simp [hm]))
    simp [splitOnChar, hc, hr]

lemma splitOnChar_append (sep : Char) (l1 l2 : List Char) (h : sep ∉ l1) :
    splitOnChar sep (l1 ++ sep :: l2) = l1 :: splitOnChar sep l2 := by
  induction l1 with
  | nil => simp [splitOnChar]
  | cons c l ih =>
    have hc : ¬ c = sep := fun e => h (by simp [e])
    have hr := ih (fun hm => h (by simp [hm]))
    simp [splitOnChar, hc, hr]

lemma data_ne_nil (s : String) (h : s ≠ "") : s.data ≠ [] := by
  intro hd
  apply h
  cases s
  simp_all

lemma find_testsys_reduce (pre mid l : List String)
    (hpre : "testsys" ∉ pre)
    (hmid : ∀ s ∈ mid, starts_with s "-f" = false ∧ starts_with s "--file" = false) :
    find_testsys_test_path (pre ++ "testsys" :: "test" :: (mid ++ l))
      = scanFileArg
          (l.dropWhile (fun s => !(starts_with s "-f") && !(starts_with s "--file"))) := by
  have h1 : (pre ++ "testsys" :: "test" :: (mid ++ l)).dropWhile (fun s => s != "testsys")
      = "testsys" :: "test" :: (mid ++ l) := by
    rw [dropWhile_append_all _ pre _ (fun a ha => by
      simp only [bne_iff_ne, ne_eq, decide_eq_true_eq]
      exact fun e => hpre (e ▸ ha))]
    simp [List.dropWhile_cons]
  have h2 : (mid ++ l).dropWhile (fun s => !(starts_with s "-f") && !(starts_with s "--file"))
      = l.dropWhile (fun s => !(starts_with s "-f") && !(starts_with s "--file")) := by
    refine dropWhile_append_all _ mid l (fun a ha => ?_)
    rcases hmid a ha with ⟨hf, hfl⟩
    simp [hf, hfl]
  simp [find_testsys_test_path, h1, h2]

/-- C8 counterexample: at `["testsys", "test", "-foo", "bar"]` none of the
four claimed file-argument forms (`-f p`, `--file p`, `-f=p`, `--file=p`)
appears after `testsys test`, so the claim requires `none`; the scan
nevertheless matches `-foo` by prefix and returns `some "bar"`. -/
theorem find_testsys_test_path_counterexample :
    find_testsys_test_path ["testsys", "test", "-foo", "bar"] = some "bar"
    ∧ (["-foo", "bar"].all (fun s =>
        (s != "-f") && (s != "--file")
          && !(starts_with s "-f=") && !(starts_with s "--file=")) = true) := by
  constructor
  · decide
  · decide

/-- C8 amended: the scan matches the first argument after `testsys test`
that starts with `-f` or `--file` (a prefix match, not an exact match of the
four forms). When the earlier arguments carry no such prefix, the four
claimed forms all yield the path, no such argument yields `none`, and an
empty `-f=`/`--file=` path yields `none`. -/
theorem find_testsys_test_path_forms (pre mid rest : List String) (path : String)
    (hpre : "testsys" ∉ pre)
    (hmid : ∀ s ∈ mid, starts_with s "-f" = false ∧ starts_with s "--file" = false)
    (hpath1 : path ≠ "") (hpath2 : ('=' : Char) ∉ path.data) :
    find_testsys_test_path (pre ++ "testsys" :: "test" :: (mid ++ "-f" :: path :: rest))
      = some path
    ∧ find_testsys_test_path (pre ++ "testsys" :: "test" :: (mid ++ "--file" :: path :: rest))
      = some path
    ∧ find_testsys_test_path (pre ++ "testsys" :: "test" :: (mid ++ ("-f=" ++ path) :: rest))
      = some path
    ∧ find_testsys_test_path (pre ++ "testsys" :: "test" :: (mid ++ ("--file=" ++ path) :: rest))
      = some path
    ∧ find_testsys_test_path (pre ++ "testsys" :: "test" :: mid) = none
    ∧ find_testsys_test_path (pre ++ "testsys" :: "test" :: (mid ++ ["-f="])) = none
    ∧ find_testsys_test_path (pre ++ "testsys" :: "test" :: (mid ++ ["--file="])) = none := by
  have hdata : path.data ≠ [] := data_ne_nil path hpath1
  have hmk : String.mk path.data = path := rfl
  refine ⟨?_, ?_, ?_, ?_, ?_, ?_, ?_⟩
  · rw [find_testsys_reduce pre mid _ hpre hmid]
    simp [List.dropWhile_cons, starts_with, List.isPrefixOf, scanFileArg]
  · rw [find_testsys_reduce pre mid _ hpre hmid]
    simp [List.dropWhile_cons, starts_with, List.isPrefixOf, scanFileArg]
  · rw [find_testsys_reduce pre mid _ hpre hmid]
    have hsw : starts_with ("-f=" ++ path) "-f" = true := by
      simp only [starts_with, String.data_append]
      simp [isPrefixOf_append_self "-f=".data path.data]
    have hsw2 : starts_with ("-f=" ++ path) "-f=" = true := starts_with_append _ _
    have hsplit : splitOnChar '=' ('-' :: 'f' :: '=' :: path.data)
        = ['-', 'f'] :: splitOnChar '=' path.data :=
      splitOnChar_append '=' ['-', 'f'] path.data (by decide)
    simp [List.dropWhile_cons, hsw, scanFileArg, hsw2, hsplit,
      splitOnChar_no_sep '=' path.data hpath2, hdata, hmk]
  · rw [find_testsys_reduce pre mid _ hpre hmid]
    have hsw : starts_with ("--file=" ++ path) "--file" = true := by
      simp only [starts_with, String.data_append]
      simp [isPrefixOf_append_self "--file=".data path.data]
    have hswf : starts_with ("--file=" ++ path) "-f=" = false := by
      simp [starts_with, String.data_append, List.isPrefixOf]
    have hsw2 : starts_with ("--file=" ++ path) "--file=" = true := starts_with_append _ _
    have hsplit : splitOnChar '=' ('-' :: '-' :: 'f' :: 'i' :: 'l' :: 'e' :: '=' :: path.data)
        = ['-', '-', 'f', 'i', 'l', 'e'] :: splitOnChar '=' path.data :=
      splitOnChar_append '=' ['-', '-', 'f', 'i', 'l', 'e'] path.data (by decide)
    simp [List.dropWhile_cons, hsw, scanFileArg, hswf, hsw2, hsplit,
      splitOnChar_no_sep '=' path.data hpath2, hdata, hmk]
  · have := find_testsys_reduce pre mid [] hpre hmid
    simpa using this
  · rw [find_testsys_reduce pre mid _ hpre hmid]
    simp [List.dropWhile_cons, starts_with, List.isPrefixOf, scanFileArg, splitOnChar]
  · rw [find_testsys_reduce pre mid _ hpre hmid]
    simp [List.dropWhile_cons, starts_with, List.isPrefixOf, scanFileArg, splitOnChar]

/-- C8 witness: the amended theorem applied at a concrete argument list. -/
theorem find_testsys_test_path_forms_witness :
    find_testsys_test_path (["--verbose"] ++ "testsys" :: "test" :: (["--blah"] ++ "-f" :: "/the/path" :: []))
      = some "/the/path"
    ∧ find_testsys_test_path (["--verbose"] ++ "testsys" :: "test" :: (["--blah"] ++ "--file" :: "/the/path" :: []))
      = some "/the/path"
    ∧ find_testsys_test_path (["--verbose"] ++ "testsys" :: "test" :: (["--blah"] ++ ("-f=" ++ "/the/path") :: []))
      = some "/the/path"
    ∧ find_testsys_test_path (["--verbose"] ++ "testsys" :: "test" :: (["--blah"] ++ ("--file=" ++ "/the/path") :: []))
      = some "/the/path"
    ∧ find_testsys_test_path (["--verbose"] ++ "testsys" :: "test" :: ["--blah"]) = none
    ∧ find_testsys_test_path (["--verbose"] ++ "testsys" :: "test" :: (["--blah"] ++ ["-f="])) = none
    ∧ find_testsys_test_path (["--verbose"] ++ "testsys" :: "test" :: (["--blah"] ++ ["--file="])) = none :=
  find_testsys_test_path_forms ["--verbose"] ["--blah"] [] "/the/path"
    (by decide) (by decide) (by decide) (by decide)

end Twoliter

namespace Twoliter

/-! ## Tool installation (src/twoliter/src/tools.rs) -/

/-- A filesystem path, as a list of components. -/
abbrev FsPath := List String

/-- Contents of a file as seen by a reader: readable text, or a file whose
read fails (permissions, encoding, ...). -/
inductive FileData where
  | readable (contents : String)
  | unreadable
deriving DecidableEq, Repr

/-- A file-level view of the filesystem: each path maps to a file or to
nothing. -/
abbrev ToolsFs := FsPath → Option FileData

/-- Writing a file (`fs::write`): the target path now holds the data. -/
def ToolsFs.write (fs : ToolsFs) (p : FsPath) (d : FileData) : ToolsFs :=
  fun q => if q = p then some d else fs q

/-- Embeds `fn should_install` (src/twoliter/src/tools.rs lines 40-65): a
missing sentinel file or a failed read means install; otherwise install
exactly when the stored hash differs from the current bundle hash. The
source returns `bool`, never an error, which this embedding mirrors. -/
def should_install (tools_hash : String) (fs : ToolsFs) (sentinel_filepath : FsPath) : Bool :=
  match fs sentinel_filepath with
  | none => true
  | some .unreadable => true
  | some (.readable installed) => installed != tools_hash

/-- Embeds `fn unpack_tarball` (src/twoliter/src/tools.rs lines 67-78):
each member of the embedded archive is written into the tools directory. -/
def unpack_tarball (members : List (String × String)) (fs : ToolsFs) (tools_dir : FsPath) : ToolsFs :=
  members.foldl (fun acc m => ToolsFs.write acc (tools_dir ++ [m.1]) (.readable m.2)) fs

/-- What one call to `install_tools` did: the resulting filesystem, whether
the early-return skip branch was taken, and whether the archive was
unpacked. -/
structure InstallOutcome where
  fs : ToolsFs
  skipped : Bool
  unpacked : Bool

/-- Embeds `fn install_tools` (src/twoliter/src/tools.rs lines 11-38),
keeping the source's file names exactly: the sentinel is read from
`tools_dir/install` while the marker hash is written to
`tools_dir/installed`. -/
def install_tools (tools_hash : String) (members : List (String × String))
    (fs : ToolsFs) (tools_dir : FsPath) (force : Bool) : InstallOutcome :=
  let sentinel_filepath := tools_dir ++ ["install"]
  if !force && !(should_install tools_hash fs sentinel_filepath) then
    { fs := fs, skipped := true, unpacked := false }
  else
    let fs1 := unpack_tarball members fs tools_dir
    let installed := tools_dir ++ ["installed"]
    { fs := ToolsFs.write fs1 installed (.readable tools_hash), skipped := false, unpacked := true }

/-- The member names of the embedded tools archive, from the build script
src/twoliter/build.rs lines 35-48 (scripts and task definition copied from
the embedded directory plus the bindeps binaries). -/
def tarball_member_names : List String :=
  ["Dockerfile", "Makefile.toml", "docker-go", "partyplanner", "rpm2img",
   "rpm2kmodkit", "rpm2migrations", "bottlerocket-variant", "buildsys",
   "pubsys", "pubsys-setup", "testsys", "tuftool"]

lemma unpack_tarball_apply_ne :
    ∀ (members : List (String × String)) (fs : ToolsFs) (tools_dir q : FsPath),
      (∀ m ∈ members, tools_dir ++ [m.1] ≠ q) →
      unpack_tarball members fs tools_dir q = fs q := by
  intro members
  induction members with
  | nil => intro fs d q _; rfl
  | cons m rest ih =>
    intro fs d q h
    have step : unpack_tarball (m :: rest) fs d
        = unpack_tarball rest (ToolsFs.write fs (d ++ [m.1]) (.readable m.2)) d := rfl
    rw [step, ih _ _ _ (fun m2 hm2 => h m2 (by simp [hm2]))]
    have hne := h m (List.mem_cons_self m rest)
    simp only [ToolsFs.write]
    rw [if_neg (Ne.symm hne)]

lemma install_tools_of_should (tools_hash : String) (members : List (String × String))
    (fs : ToolsFs) (tools_dir : FsPath)
    (h : should_install tools_hash fs (tools_dir ++ ["install"]) = true) :
    (install_tools tools_hash members fs tools_dir false).skipped = false
    ∧ (install_tools tools_hash members fs tools_dir false).unpacked = true := by
  unfold install_tools
  simp [h]

end Twoliter

namespace Twoliter

/-- C1 (code bug): starting from a fresh tools directory, a first
non-forced `install_tools` unpacks and writes the current hash to the
marker file `installed`; but the sentinel `install` that `should_install`
reads is still absent, so a second non-forced call with the same bundle
hash does not take the skip branch and unpacks the archive again,
contradicting the claimed idempotent skip. -/
theorem install_tools_sentinel_mismatch (tools_hash : String)
    (content : String → String) (tools_dir : FsPath) :
    (install_tools tools_hash (tarball_member_names.map (fun n => (n, content n)))
        (fun _ => none) tools_dir false).unpacked = true
    ∧ (install_tools tools_hash (tarball_member_names.map (fun n => (n, content n)))
        (fun _ => none) tools_dir false).fs (tools_dir ++ ["installed"])
        = some (.readable tools_hash)
    ∧ (install_tools tools_hash (tarball_member_names.map (fun n => (n, content n)))
        (fun _ => none) tools_dir false).fs (tools_dir ++ ["install"]) = none
    ∧ (install_tools tools_hash (tarball_member_names.map (fun n => (n, content n)))
        ((install_tools tools_hash (tarball_member_names.map (fun n => (n, content n)))
          (fun _ => none) tools_dir false).fs) tools_dir false).skipped = false
    ∧ (install_tools tools_hash (tarball_member_names.map (fun n => (n, content n)))
        ((install_tools tools_hash (tarball_member_names.map (fun n => (n, content n)))
          (fun _ => none) tools_dir false).fs) tools_dir false).unpacked = true := by
  have hnames : ∀ m ∈ tarball_member_names.map (fun n => (n, content n)),
      tools_dir ++ [m.1] ≠ tools_dir ++ ["install"] := by
    intro m hm
    rcases List.mem_map.mp hm with ⟨n, hn, rfl⟩
    intro e
    have hn2 : n = "install" := by simpa using List.append_cancel_left e
    subst hn2
    revert hn
    decide
  have hfs : (install_tools tools_hash (tarball_member_names.map (fun n => (n, content n)))
      (fun _ => none) tools_dir false).fs
      = ToolsFs.write
          (unpack_tarball (tarball_member_names.map (fun n => (n, content n)))
            (fun _ => none) tools_dir)
          (tools_dir ++ ["installed"]) (.readable tools_hash) := rfl
  have hmarker : (install_tools tools_hash (tarball_member_names.map (fun n => (n, content n)))
      (fun _ => none) tools_dir false).fs (tools_dir ++ ["installed"])
      = some (.readable tools_hash) := by
    rw [hfs]; simp [ToolsFs.write]
  have hneq : tools_dir ++ ["install"] ≠ tools_dir ++ ["installed"] := by
    intro e
    have := List.append_cancel_left e
    simp at this
  have hsent : (install_tools tools_hash (tarball_member_names.map (fun n => (n, content n)))
      (fun _ => none) tools_dir false).fs (tools_dir ++ ["install"]) = none := by
    rw [hfs]
    simp only [ToolsFs.write]
    rw [if_neg hneq]
    exact unpack_tarball_apply_ne _ _ _ _ hnames
  have hshould : should_install tools_hash
      (install_tools tools_hash (tarball_member_names.map (fun n => (n, content n)))
        (fun _ => none) tools_dir false).fs (tools_dir ++ ["install"]) = true := by
    unfold should_install
    rw [hsent]
  exact ⟨rfl, hmarker, hsent,
    (install_tools_of_should _ _ _ _ hshould).1,
    (install_tools_of_should _ _ _ _ hshould).2⟩

/-- C10: a missing or unreadable sentinel file never fails the call:
`should_install` (a total boolean, as in the source) returns `true` in
both cases and `install_tools` proceeds to install rather than erroring. -/
theorem install_tools_marker_read_total (tools_hash : String)
    (members : List (String × String)) (fs : ToolsFs) (tools_dir : FsPath)
    (h : fs (tools_dir ++ ["install"]) = none
         ∨ fs (tools_dir ++ ["install"]) = some .unreadable) :
    should_install tools_hash fs (tools_dir ++ ["install"]) = true
    ∧ (install_tools tools_hash members fs tools_dir false).skipped = false
    ∧ (install_tools tools_hash members fs tools_dir false).unpacked = true := by
  have hs : should_install tools_hash fs (tools_dir ++ ["install"]) = true := by
    unfold should_install
    rcases h with h | h <;> rw [h]
  exact ⟨hs, (install_tools_of_should _ _ _ _ hs).1, (install_tools_of_should _ _ _ _ hs).2⟩

/-- C10 witness: the theorem applied to an empty filesystem, whose sentinel
read yields nothing. -/
theorem install_tools_marker_read_total_witness :
    should_install "h0" (fun _ => none) (["tools"] ++ ["install"]) = true
    ∧ (install_tools "h0" [] (fun _ => none) ["tools"] false).skipped = false
    ∧ (install_tools "h0" [] (fun _ => none) ["tools"] false).unpacked = true :=
  install_tools_marker_read_total "h0" [] (fun _ => none) ["tools"] (Or.inl rfl)

end Twoliter

namespace Twoliter

/-! ## Process invocation (src/twoliter/src/common.rs, fn exec) -/

/-- Embeds `log::LevelFilter` as matched by `exec`. -/
inductive LevelFilter where
  | off | error | warn | info | debug | trace
deriving DecidableEq, Repr

/-- The observed outcome of a spawned command that ran to completion:
its exit code (`none` when killed by a signal, as for Rust
`ExitStatus::code()`), and the captured output streams. -/
structure CmdOutput where
  code : Option Int
  stdout : String
  stderr : String
deriving DecidableEq, Repr

/-- Rust `ExitStatus::success()`: the exit code is zero. -/
def status_success (code : Option Int) : Bool := code == some 0

/-- The failure carried out of `exec`: in buffered (quiet) mode the message
includes the exit code and the captured stdout and stderr; in streamed
(verbose) mode it includes the exit code only, as in the two `ensure!`
calls of the source. -/
inductive ExecError where
  | captured (cmd : String) (code : Int) (stdout stderr : String)
  | streamed (cmd : String) (code : Int)
deriving DecidableEq, Repr

/-- Embeds `fn exec` (src/twoliter/src/common.rs lines 8-44): at the quiet
log levels Off, Error and Warn the output is captured and a failure carries
the code plus the captured output; at Info, Debug and Trace the output is
streamed and a failure carries the code only; `code().unwrap_or(1)` is
`Option.getD 1`. -/
def exec (lvl : LevelFilter) (cmd : String) (out : CmdOutput) : Except ExecError Unit :=
  match lvl with
  | .off | .error | .warn =>
    if status_success out.code then Except.ok ()
    else Except.error (.captured cmd (out.code.getD 1) out.stdout out.stderr)
  | .info | .debug | .trace =>
    if status_success out.code then Except.ok ()
    else Except.error (.streamed cmd (out.code.getD 1))

/-! ## Environment image provisioning (src/twoliter/src/docker/twoliter.rs) -/

/-- Embeds `struct DockerBuild` (src/twoliter/src/docker/commands.rs lines
16-21): the state handed to `docker build`. -/
structure DockerBuild where
  dockerfile : Option String
  context_dir : String
  tag : Option ImageUri
  build_args : List (String × String)
deriving DecidableEq, Repr

/-- Embeds `create_twoliter_image_if_not_exists`
(src/twoliter/src/docker/twoliter.rs lines 13-56): builds the environment
image from the written dockerfile and unpacked context, passing the base
SDK reference as the `BASE` build arg and tagging `twoliter:latest`; the
`daemon_images` argument stands for the docker daemon's image store, which
the source never consults (its existence check is an open TODO). The first
component is the `docker build` request it executes unconditionally, the
second the `ImageUri` returned on success. -/
def create_twoliter_image_if_not_exists (sdk : ImageArchUri) (temp_dir : String)
    (daemon_images : List String) : DockerBuild × ImageUri :=
  let context_dir := temp_dir ++ "/context"
  let dockerfile_path := temp_dir ++ "/Twoliter.dockerfile"
  let image_uri := ImageUri.new none "twoliter" "latest"
  let build : DockerBuild :=
    { dockerfile := some dockerfile_path
      context_dir := context_dir
      tag := some image_uri
      build_args := [("BASE", sdk.uri)] }
  (build, image_uri)

end Twoliter

namespace Twoliter

/-- C4: a zero exit status yields Ok at every log level; a non-zero status
yields a captured-output failure with the exit code, stdout and stderr at
the quiet levels, and a code-only streamed failure at the verbose levels. -/
theorem exec_exit_handling (lvl : LevelFilter) (cmd : String) (out : CmdOutput) :
    (out.code = some 0 → exec lvl cmd out = Except.ok ())
    ∧ (out.code ≠ some 0 →
        ((lvl = .off ∨ lvl = .error ∨ lvl = .warn) →
          exec lvl cmd out
            = Except.error (.captured cmd (out.code.getD 1) out.stdout out.stderr))
        ∧ ((lvl = .info ∨ lvl = .debug ∨ lvl = .trace) →
          exec lvl cmd out = Except.error (.streamed cmd (out.code.getD 1)))) := by
  constructor
  · intro h
    cases lvl <;> simp [exec, status_success, h]
  · intro h
    constructor
    · rintro (rfl | rfl | rfl) <;> simp [exec, status_success, h]
    · rintro (rfl | rfl | rfl) <;> simp [exec, status_success, h]

/-- C4 witness: the theorem applied at exit code 2 in quiet and verbose
modes and at exit code 0. -/
theorem exec_exit_handling_witness :
    exec .warn "c" ⟨some 2, "o", "e"⟩ = Except.error (.captured "c" 2 "o" "e")
    ∧ exec .debug "c" ⟨some 2, "o", "e"⟩ = Except.error (.streamed "c" 2)
    ∧ exec .warn "c" ⟨some 0, "o", "e"⟩ = Except.ok () :=
  ⟨((exec_exit_handling .warn "c" ⟨some 2, "o", "e"⟩).2 (by decide)).1
      (Or.inr (Or.inr rfl)),
   ((exec_exit_handling .debug "c" ⟨some 2, "o", "e"⟩).2 (by decide)).2
      (Or.inr (Or.inl rfl)),
   (exec_exit_handling .warn "c" ⟨some 0, "o", "e"⟩).1 rfl⟩

/-- C9: provisioning ignores the daemon's image store (no existence check),
passes the base SDK reference as the `BASE` build arg, tags the fixed
`twoliter:latest`, and returns the registry-less `twoliter:latest`
reference. -/
theorem create_twoliter_image_spec (sdk : ImageArchUri) (temp_dir : String)
    (daemon_images : List String) :
    (∀ other_images : List String,
      create_twoliter_image_if_not_exists sdk temp_dir other_images
        = create_twoliter_image_if_not_exists sdk temp_dir daemon_images)
    ∧ (create_twoliter_image_if_not_exists sdk temp_dir daemon_images).1.build_args
        = [("BASE", sdk.uri)]
    ∧ (create_twoliter_image_if_not_exists sdk temp_dir daemon_images).1.tag
        = some (ImageUri.new none "twoliter" "latest")
    ∧ (create_twoliter_image_if_not_exists sdk temp_dir daemon_images).2
        = ImageUri.new none "twoliter" "latest"
    ∧ (create_twoliter_image_if_not_exists sdk temp_dir daemon_images).2.uri
        = "twoliter:latest" :=
  ⟨fun _ => rfl, rfl, rfl, rfl, rfl⟩

end Twoliter

namespace Twoliter

/-! ## Mount planning (src/twoliter/src/cmd/exec.rs, fn add, lines 193-249) -/

/-- Embeds `enum PathType` (src/twoliter/src/cmd/exec.rs lines 174-178). -/
inductive PathType where
  | file | dir
deriving DecidableEq, Repr

/-- The filesystem as the mount planner sees it: which paths exist, and the
resolution performed by canonicalization (symlinks, `..`). -/
structure MountFs where
  existsAt : FsPath → Bool
  canon : FsPath → FsPath

/-- Rust `Path::canonicalize` wrapped by `fn canonicalize`
(src/twoliter/src/cmd/exec.rs lines 286-291): resolves an existing path,
fails on a non-existent one. -/
def MountFs.canonicalize (fs : MountFs) (p : FsPath) : Except String FsPath :=
  if fs.existsAt p then Except.ok (fs.canon p) else Except.error "Unable to canonicalize the path"

/-- `fs::create_dir_all`: the path and all its ancestors now exist. -/
def MountFs.create_dir_all (fs : MountFs) (p : FsPath) : MountFs :=
  { fs with existsAt := fun q => q.isPrefixOf p || fs.existsAt q }

/-- `HashSet::insert` for mounts; `Mount::new` makes the mount a function of
its source path, so a mount is identified by that path. -/
def insertMount (p : FsPath) (mounts : List FsPath) : List FsPath :=
  if p ∈ mounts then mounts else p :: mounts

/-- Rust `Path::parent`: strip the last component; the empty (root) path
has no parent. -/
def pathParent : FsPath → Option FsPath
  | [] => none
  | p => some p.dropLast

/-- Embeds `async fn add` (src/twoliter/src/cmd/exec.rs lines 193-249): an
existing path is canonicalized and mounted; a non-existent path with
`create` set and outside the project directory is created (the parent
directory for `kind=file`, the directory itself for `kind=dir`) and the
created directory mounted; a non-existent path inside the project directory
is skipped; otherwise canonicalization of the missing path fails. -/
def add (mounts : List FsPath) (fs : MountFs) (project_dir path : FsPath)
    (path_type : PathType) (create : Bool) : Except String (List FsPath × MountFs) :=
  let ex := fs.existsAt path
  let in_project := project_dir.isPrefixOf path
  if create && !ex && !in_project then
    match path_type with
    | .file =>
      match pathParent path with
      | none => Except.error "Unable to create a directory for file"
      | some parent =>
        let fs1 := if fs.existsAt parent then fs else fs.create_dir_all parent
        match fs1.canonicalize parent with
        | .ok cp => Except.ok (insertMount cp mounts, fs1)
        | .error e => Except.error e
    | .dir =>
      let fs1 := fs.create_dir_all path
      match fs1.canonicalize path with
      | .ok cp => Except.ok (insertMount cp mounts, fs1)
      | .error e => Except.error e
  else if !ex && in_project then
    Except.ok (mounts, fs)
  else
    match fs.canonicalize path with
    | .ok cp => Except.ok (insertMount cp mounts, fs)
    | .error e => Except.error e

lemma isPrefixOf_refl {α} [BEq α] [LawfulBEq α] (l : List α) : l.isPrefixOf l = true := by
  have h := isPrefixOf_append_self l []
  simp only [List.append_nil] at h
  exact h

lemma isPrefixOf_length_le {α} [BEq α] (l1 l2 : List α) (h : l1.isPrefixOf l2 = true) :
    l1.length ≤ l2.length := by
  induction l1 generalizing l2 with
  | nil => simp
  | cons a l ih =>
    cases l2 with
    | nil => simp [List.isPrefixOf] at h
    | cons b l2 =>
      simp only [List.isPrefixOf, Bool.and_eq_true] at h
      simpa using ih l2 h.2

lemma isPrefixOf_dropLast_false (p : FsPath) (h : p ≠ []) :
    p.isPrefixOf p.dropLast = false := by
  cases hb : p.isPrefixOf p.dropLast
  · rfl
  · exfalso
    have hlen := isPrefixOf_length_le p p.dropLast hb
    rw [List.length_dropLast] at hlen
    have : 0 < p.length := List.length_pos.mpr h
    omega

end Twoliter

namespace Twoliter

/-- C6: for a declared `kind=file` path with `create=true` that does not
exist and is outside the project directory, `add` creates the path's parent
directory (not the file itself) and inserts a mount whose source is the
canonicalized parent; a non-existent path inside the project directory is
skipped without error, leaving mounts and filesystem unchanged. -/
theorem add_file_create_spec (mounts : List FsPath) (fs : MountFs)
    (project_dir path : FsPath)
    (hne : path ≠ [])
    (hnex : fs.existsAt path = false) :
    (project_dir.isPrefixOf path = false →
      ∃ fs1 : MountFs,
        add mounts fs project_dir path .file true
          = Except.ok (insertMount (fs.canon path.dropLast) mounts, fs1)
        ∧ fs1.existsAt path.dropLast = true
        ∧ fs1.existsAt path = false
        ∧ fs1.canon = fs.canon)
    ∧ (project_dir.isPrefixOf path = true →
        ∀ (path_type : PathType) (create : Bool),
          add mounts fs project_dir path path_type create = Except.ok (mounts, fs)) := by
  constructor
  · intro hout
    refine ⟨if fs.existsAt path.dropLast then fs else fs.create_dir_all path.dropLast,
      ?_, ?_, ?_, ?_⟩
    · have hpar : pathParent path = some path.dropLast := by
        cases path with
        | nil => exact absurd rfl hne
        | cons a l => rfl
      by_cases hp : fs.existsAt path.dropLast = true
      · simp [add, hnex, hout, hpar, hp, MountFs.canonicalize]
      · simp only [Bool.not_eq_true] at hp
        simp [add, hnex, hout, hpar, hp, MountFs.canonicalize, MountFs.create_dir_all,
          isPrefixOf_refl]
    · by_cases hp : fs.existsAt path.dropLast = true
      · simp [hp]
      · simp only [Bool.not_eq_true] at hp
        simp [hp, MountFs.create_dir_all, isPrefixOf_refl]
    · by_cases hp : fs.existsAt path.dropLast = true
      · simp [hp, hnex]
      · simp only [Bool.not_eq_true] at hp
        simp [hp, MountFs.create_dir_all, hnex, isPrefixOf_dropLast_false path hne]
    · by_cases hp : fs.existsAt path.dropLast = true
      · simp [hp]
      · simp only [Bool.not_eq_true] at hp
        simp [hp, MountFs.create_dir_all]
  · intro hin path_type create
    simp [add, hnex, hin]

/-- C6 witness: the theorem applied at a concrete empty filesystem, a
project directory, and a file path outside it. -/
theorem add_file_create_spec_witness :
    ((["proj"] : FsPath).isPrefixOf ["out", "f.txt"] = false →
      ∃ fs1 : MountFs,
        add [] ⟨fun _ => false, id⟩ ["proj"] ["out", "f.txt"] .file true
          = Except.ok (insertMount (id (["out", "f.txt"] : FsPath).dropLast) [], fs1)
        ∧ fs1.existsAt (["out", "f.txt"] : FsPath).dropLast = true
        ∧ fs1.existsAt ["out", "f.txt"] = false
        ∧ fs1.canon = id)
    ∧ ((["proj"] : FsPath).isPrefixOf ["out", "f.txt"] = true →
        ∀ (path_type : PathType) (create : Bool),
          add [] ⟨fun _ => false, id⟩ ["proj"] ["out", "f.txt"] path_type create
            = Except.ok ([], ⟨fun _ => false, id⟩)) :=
  add_file_create_spec [] ⟨fun _ => false, id⟩ ["proj"] ["out", "f.txt"]
    (by decide) rfl

end Twoliter

namespace Twoliter

/-! ## Transient-resource cleanup (src/twoliter/src/cmd/build.rs, AlphaSdk) -/

/-- What a path currently holds on the host. -/
inductive EntryKind where
  | file | dir
deriving DecidableEq, Repr

/-- The host filesystem as the cleanup loop sees it: what each path holds,
and which paths an attempted removal would fail on (permissions and the
like). -/
structure CleanupFs where
  entry : FsPath → Option EntryKind
  undeletable : FsPath → Bool

/-- `fs::remove_file`: deletes the one path, or fails. -/
def CleanupFs.remove_file (fs : CleanupFs) (p : FsPath) : Except String CleanupFs :=
  if fs.undeletable p then Except.error "Unable to remove file"
  else Except.ok { fs with entry := fun q => if q = p then none else fs.entry q }

/-- `fs::remove_dir_all`: deletes the directory and everything under it, or
fails. -/
def CleanupFs.remove_dir_all (fs : CleanupFs) (p : FsPath) : Except String CleanupFs :=
  if fs.undeletable p then Except.error "Unable to remove dir"
  else Except.ok { fs with entry := fun q => if p.isPrefixOf q then none else fs.entry q }

/-- One removal performed by the cleanup loop. -/
inductive FsOp where
  | removeFile (p : FsPath)
  | removeDirAll (p : FsPath)
deriving DecidableEq, Repr

/-- The outcome of `AlphaSdk::cleanup`: the filesystem reached, the removal
operations performed in order, and the first error if one occurred (the
`?` operator stops the loop there). -/
structure CleanupResult where
  fs : CleanupFs
  ops : List FsOp
  err : Option String

/-- Embeds `AlphaSdk::cleanup` (src/twoliter/src/cmd/build.rs lines
196-206): for each recorded path in order, a file is removed with
`remove_file`, a directory with `remove_dir_all`, and a path that no longer
exists is skipped; the first failing removal aborts the loop with its
error. -/
def cleanup (fs : CleanupFs) : List FsPath → CleanupResult
  | [] => { fs := fs, ops := [], err := none }
  | p :: rest =>
    if fs.entry p = some .file then
      match fs.remove_file p with
      | .ok fs1 =>
        let r := cleanup fs1 rest
        { fs := r.fs, ops := .removeFile p :: r.ops, err := r.err }
      | .error e => { fs := fs, ops := [], err := some e }
    else if fs.entry p = some .dir then
      match fs.remove_dir_all p with
      | .ok fs1 =>
        let r := cleanup fs1 rest
        { fs := r.fs, ops := .removeDirAll p :: r.ops, err := r.err }
      | .error e => { fs := fs, ops := [], err := some e }
    else
      cleanup fs rest

/-- Embeds `impl Drop for AlphaSdk` (src/twoliter/src/cmd/build.rs lines
209-228): the automatic cleanup runs `AlphaSdk::cleanup` on the recorded
paths and turns a failure into a log line; its type carries no error, so
nothing can propagate to the caller's result. -/
def drop_cleanup (fs : CleanupFs) (created_files : List FsPath) : CleanupFs × List String :=
  let r := cleanup fs created_files
  match r.err with
  | none => (r.fs, [])
  | some e => (r.fs, ["Unable to delete Alpha SDK temp objects: " ++ e])

lemma cleanup_entry_none :
    ∀ (l : List FsPath) (fs : CleanupFs) (q : FsPath), fs.entry q = none →
      ((cleanup fs l).fs).entry q = none := by
  intro l
  induction l with
  | nil => intro fs q h; exact h
  | cons p rest ih =>
    intro fs q h
    unfold cleanup
    by_cases hf : fs.entry p = some .file
    · simp only [hf, if_true]
      unfold CleanupFs.remove_file
      by_cases hu : fs.undeletable p = true
      · simp [hu, h]
      · simp only [Bool.not_eq_true] at hu
        simp only [hu, Bool.false_eq_true, if_false]
        exact ih _ q (by simp [h])
    · simp only [hf, if_false]
      by_cases hd : fs.entry p = some .dir
      · simp only [hd, if_true]
        unfold CleanupFs.remove_dir_all
        by_cases hu : fs.undeletable p = true
        · simp [hu, h]
        · simp only [Bool.not_eq_true] at hu
          simp only [hu, Bool.false_eq_true, if_false]
          exact ih _ q (by simp [h])
      · simp only [hd, if_false]
        exact ih fs q h

lemma cleanup_err_none :
    ∀ (l : List FsPath) (fs : CleanupFs), (∀ p ∈ l, fs.undeletable p = false) →
      (cleanup fs l).err = none := by
  intro l
  induction l with
  | nil => intro fs _; rfl
  | cons p rest ih =>
    intro fs hdel
    have hu : fs.undeletable p = false := hdel p (by simp)
    have hrest : ∀ q ∈ rest, fs.undeletable q = false := fun q hq => hdel q (by simp [hq])
    unfold cleanup
    by_cases hf : fs.entry p = some .file
    · simp only [hf, if_true]
      unfold CleanupFs.remove_file
      simp only [hu, Bool.false_eq_true, if_false]
      exact ih _ hrest
    · simp only [hf, if_false]
      by_cases hd : fs.entry p = some .dir
      · simp only [hd, if_true]
        unfold CleanupFs.remove_dir_all
        simp only [hu, Bool.false_eq_true, if_false]
        exact ih _ hrest
      · simp only [hd, if_false]
        exact ih fs hrest

lemma cleanup_deletes :
    ∀ (l : List FsPath) (fs : CleanupFs), (∀ p ∈ l, fs.undeletable p = false) →
      ∀ p ∈ l, ((cleanup fs l).fs).entry p = none := by
  intro l
  induction l with
  | nil => intro fs _ p hp; exact absurd hp (by simp)
  | cons p rest ih =>
    intro fs hdel q hq
    have hu : fs.undeletable p = false := hdel p (by simp)
    have hrest : ∀ x ∈ rest, fs.undeletable x = false := fun x hx => hdel x (by simp [hx])
    unfold cleanup
    by_cases hf : fs.entry p = some .file
    · simp only [hf, if_true]
      unfold CleanupFs.remove_file
      simp only [hu, Bool.false_eq_true, if_false]
      rcases List.mem_cons.mp hq with rfl | hq2
      · exact cleanup_entry_none rest _ q (by simp)
      · refine ih _ ?_ q hq2
        exact hrest
    · simp only [hf, if_false]
      by_cases hd : fs.entry p = some .dir
      · simp only [hd, if_true]
        unfold CleanupFs.remove_dir_all
        simp only [hu, Bool.false_eq_true, if_false]
        rcases List.mem_cons.mp hq with rfl | hq2
        · exact cleanup_entry_none rest _ q (by simp [isPrefixOf_refl])
        · refine ih _ ?_ q hq2
          exact hrest
      · simp only [hd, if_false]
        rcases List.mem_cons.mp hq with rfl | hq2
        · have hnone : fs.entry q = none := by
            cases he : fs.entry q with
            | none => rfl
            | some k => cases k <;> simp_all
          exact cleanup_entry_none rest fs q hnone
        · exact ih fs hrest q hq2

end Twoliter

namespace Twoliter

lemma filterMap_congr_mem {α β} (l : List α) (f g : α → Option β)
    (h : ∀ a ∈ l, f a = g a) : l.filterMap f = l.filterMap g := by
  induction l with
  | nil => rfl
  | cons a l ih =>
    rw [List.filterMap_cons, List.filterMap_cons, h a (by simp),
      ih (fun b hb => h b (by simp [hb]))]

lemma cleanup_ops :
    ∀ (l : List FsPath) (fs : CleanupFs),
      (∀ p ∈ l, fs.undeletable p = false) →
      l.Pairwise (fun p q => p.isPrefixOf q = false ∧ q.isPrefixOf p = false) →
      (cleanup fs l).ops
        = l.filterMap (fun p =>
            match fs.entry p with
            | some .file => some (FsOp.removeFile p)
            | some .dir => some (FsOp.removeDirAll p)
            | none => none) := by
  intro l
  induction l with
  | nil => intro fs _ _; rfl
  | cons p rest ih =>
    intro fs hdel hsep
    have hu : fs.undeletable p = false := hdel p (by simp)
    have hrest : ∀ x ∈ rest, fs.undeletable x = false := fun x hx => hdel x (by simp [hx])
    rcases List.pairwise_cons.mp hsep with ⟨hp, hsep2⟩
    unfold cleanup
    by_cases hf : fs.entry p = some .file
    · simp only [hf, if_true]
      unfold CleanupFs.remove_file
      simp only [hu, Bool.false_eq_true, if_false]
      rw [List.filterMap_cons]
      simp only [hf]
      have hops : (cleanup
            { entry := fun q => if q = p then none else fs.entry q,
              undeletable := fs.undeletable } rest).ops
          = rest.filterMap (fun q =>
              match (if q = p then none else fs.entry q : Option EntryKind) with
              | some .file => some (FsOp.removeFile q)
              | some .dir => some (FsOp.removeDirAll q)
              | none => none) := by
        refine ih _ ?_ hsep2
        exact hrest
      rw [hops]
      rw [filterMap_congr_mem rest
        (fun q =>
          match (if q = p then none else fs.entry q : Option EntryKind) with
          | some .file => some (FsOp.removeFile q)
          | some .dir => some (FsOp.removeDirAll q)
          | none => none)
        (fun q =>
          match fs.entry q with
          | some .file => some (FsOp.removeFile q)
          | some .dir => some (FsOp.removeDirAll q)
          | none => none)
        (fun q hq => by
          have hne : ¬ q = p := by
            intro e
            subst e
            exact absurd (isPrefixOf_refl q) (by simp [(hp q hq).1])
          simp [hne])]
    · simp only [hf, if_false]
      by_cases hd : fs.entry p = some .dir
      · simp only [hd, if_true]
        unfold CleanupFs.remove_dir_all
        simp only [hu, Bool.false_eq_true, if_false]
        rw [List.filterMap_cons]
        simp only [hd]
        have hops : (cleanup
              { entry := fun q => if p.isPrefixOf q = true then none else fs.entry q,
                undeletable := fs.undeletable } rest).ops
            = rest.filterMap (fun q =>
                match (if p.isPrefixOf q = true then none else fs.entry q : Option EntryKind) with
                | some .file => some (FsOp.removeFile q)
                | some .dir => some (FsOp.removeDirAll q)
                | none => none) := by
          refine ih _ ?_ hsep2
          exact hrest
        rw [hops]
        rw [filterMap_congr_mem rest
          (fun q =>
            match (if p.isPrefixOf q = true then none else fs.entry q : Option EntryKind) with
            | some .file => some (FsOp.removeFile q)
            | some .dir => some (FsOp.removeDirAll q)
            | none => none)
          (fun q =>
            match fs.entry q with
            | some .file => some (FsOp.removeFile q)
            | some .dir => some (FsOp.removeDirAll q)
            | none => none)
          (fun q hq => by
            simp [(hp q hq).1])]
      · simp only [hd, if_false]
        have hnone : fs.entry p = none := by
          cases he : fs.entry p with
          | none => rfl
          | some k => cases k <;> simp_all
        rw [List.filterMap_cons]
        simp only [hnone]
        exact ih fs hrest hsep2

/-- A concrete filesystem used by the C7 witness: one file, one directory,
one already-deleted path. -/
def sampleCleanupFs : CleanupFs :=
  { entry := fun p =>
      if p = ["a.txt"] then some .file else if p = ["d"] then some .dir else none,
    undeletable := fun _ => false }

end Twoliter

namespace Twoliter

/-- C7: with the recorded paths deletable and non-nested, the cleanup loop
finishes without error, removes each still-existing recorded file with
`remove_file` and each directory with `remove_dir_all` (in recorded order),
emits nothing for already-deleted paths, leaves every recorded path absent;
and the drop-triggered automatic cleanup returns only a log: an error from
the loop becomes a log line and is never raised. -/
theorem alpha_sdk_cleanup_spec (fs : CleanupFs) (objects : List FsPath)
    (hdel : ∀ p ∈ objects, fs.undeletable p = false)
    (hsep : objects.Pairwise (fun p q => p.isPrefixOf q = false ∧ q.isPrefixOf p = false)) :
    (cleanup fs objects).err = none
    ∧ (cleanup fs objects).ops
        = objects.filterMap (fun p =>
            match fs.entry p with
            | some .file => some (FsOp.removeFile p)
            | some .dir => some (FsOp.removeDirAll p)
            | none => none)
    ∧ (∀ p ∈ objects, ((cleanup fs objects).fs).entry p = none)
    ∧ drop_cleanup fs objects = ((cleanup fs objects).fs, [])
    ∧ (∀ (fs2 : CleanupFs) (objs : List FsPath) (e : String),
        (cleanup fs2 objs).err = some e →
        drop_cleanup fs2 objs
          = ((cleanup fs2 objs).fs, ["Unable to delete Alpha SDK temp objects: " ++ e])) := by
  refine ⟨cleanup_err_none objects fs hdel, cleanup_ops objects fs hdel hsep,
    cleanup_deletes objects fs hdel, ?_, ?_⟩
  · simp [drop_cleanup, cleanup_err_none objects fs hdel]
  · intro fs2 objs e he
    simp [drop_cleanup, he]

/-- C7 witness: the theorem applied to a filesystem holding one file, one
directory and one missing path. -/
theorem alpha_sdk_cleanup_spec_witness :
    (cleanup sampleCleanupFs [["a.txt"], ["d"], ["gone"]]).err = none
    ∧ (cleanup sampleCleanupFs [["a.txt"], ["d"], ["gone"]]).ops
        = [["a.txt"], ["d"], ["gone"]].filterMap (fun p =>
            match sampleCleanupFs.entry p with
            | some .file => some (FsOp.removeFile p)
            | some .dir => some (FsOp.removeDirAll p)
            | none => none)
    ∧ (∀ p ∈ [["a.txt"], ["d"], ["gone"]],
        ((cleanup sampleCleanupFs [["a.txt"], ["d"], ["gone"]]).fs).entry p = none)
    ∧ drop_cleanup sampleCleanupFs [["a.txt"], ["d"], ["gone"]]
        = ((cleanup sampleCleanupFs [["a.txt"], ["d"], ["gone"]]).fs, [])
    ∧ (∀ (fs2 : CleanupFs) (objs : List FsPath) (e : String),
        (cleanup fs2 objs).err = some e →
        drop_cleanup fs2 objs
          = ((cleanup fs2 objs).fs, ["Unable to delete Alpha SDK temp objects: " ++ e])) :=
  alpha_sdk_cleanup_spec sampleCleanupFs [["a.txt"], ["d"], ["gone"]]
    (by intro p _; rfl) (by decide)

end Twoliter

namespace Twoliter

/-- C2 witness: the characterization applied at a concrete prefixed name. -/
theorem is_build_system_env_iff_witness :
    is_build_system_env "TESTSYS_FOO" = true :=
  (is_build_system_env_iff.1 "TESTSYS_FOO").mpr
    (Or.inr (Or.inr (Or.inr (Or.inr (Or.inl (by decide))))))

/-- C3 witness: the amended ordering applied at a concrete host
environment with one allow-listed and one rejected variable. -/
theorem exec_args_order_witness :
    exec_args "M" "D" [("BUILDSYS_ARCH", "x86_64"), ("PATH", "/usr/bin")] "/ch" "build" ["--foo"]
      = ["make", "--disable-check-for-updates", "--makefile", "M", "--cwd", "D"]
          ++ ([("BUILDSYS_ARCH", "x86_64"), ("PATH", "/usr/bin")].filter
              (fun kv => is_build_system_env kv.1)).flatMap
              (fun kv => ["-e", kv.1 ++ "=" ++ kv.2])
          ++ ["-e", "CARGO_HOME=" ++ "/ch"]
          ++ "build" :: ["--foo"]
    ∧ ∀ kv ∈ [("BUILDSYS_ARCH", "x86_64"), ("PATH", "/usr/bin")].filter
        (fun kv => is_build_system_env kv.1), is_build_system_env kv.1 = true :=
  exec_args_order "M" "D" "/ch" "build"
    [("BUILDSYS_ARCH", "x86_64"), ("PATH", "/usr/bin")] ["--foo"]

end Twoliter
